import Mathlib

/-!
# opencan: the CAN signal data model

A shallow embedding of `src/cpp/src/value.cc`, `src/cpp/src/signal.h` and
`src/cpp/src/signal.cc`.

* A C++ `int` is embedded as an `Int`.  The constructors only compare their `int`
  arguments with a constant, store them and print them; no arithmetic is done on them, so
  wrap-around never arises and every statement below holds in particular on the range of
  a 32-bit `int`.
* A constructor either returns to its caller or ends the process through
  `std::exit`, after writing a diagnostic to `std::cerr`.  `Outcome` records which of the
  two happened.
* A `std::string` / `std::string_view` is embedded as a `String`.
* A member function that is not `const` takes the object and hands it back with its result.
* The frame codec of the specification has no source; its section says from which words
  of the specification each definition is taken.
-/

namespace OpenCAN

/-! ## Process outcomes -/

/-- What a call does to the running process: it returns `value` to its caller, or it
writes `err` to `std::cerr` and ends the process with `std::exit(status)`. -/
inductive Outcome (α : Type) where
  | returned (value : α)
  | exited (status : Int) (err : String)
  deriving DecidableEq

/-- Sequential composition: the rest of the program `k` runs on the returned value; after
`std::exit` nothing of the rest runs. -/
def Outcome.andThen {α β : Type} (o : Outcome α) (k : α → Outcome β) : Outcome β :=
  match o with
  | .returned a => k a
  | .exited status err => .exited status err

/-- Whether control came back to the caller. -/
def Outcome.isReturned {α : Type} : Outcome α → Bool
  | .returned _ => true
  | .exited _ _ => false

/-- Whether the process was ended. -/
def Outcome.isExited {α : Type} : Outcome α → Bool
  | .returned _ => false
  | .exited _ _ => true

/-- The text `operator<<` writes for an `int`: its decimal digits, after a `-` when it
is negative. -/
def decimal (i : Int) : String := toString i

/-! ## The error kinds of the specification -/

/-- The two construction errors the specification names. -/
inductive ConstructionError where
  | InvalidLength
  | InvalidOffset
  deriving DecidableEq

/-- The string literal that opens the diagnostic of `CANValue::CANValue`. -/
def invalidLengthText : String := "Invalid length while constructing value"

/-- The string literal that opens the diagnostic of `CANSignal::CANSignal`. -/
def invalidOffsetText : String := "Invalid offset while constructing signal "

/-- The specification's error kind of an outcome, read off the diagnostic that was written
before the process ended: the diagnostic of `value.cc` is an `InvalidLength`, the one of
`signal.cc` an `InvalidOffset`.  An outcome that returned is no failure. -/
def Outcome.failureKind {α : Type} : Outcome α → Option ConstructionError
  | .returned _ => none
  | .exited _ err =>
    if invalidLengthText.data.isPrefixOf err.data then some .InvalidLength
    else if invalidOffsetText.data.isPrefixOf err.data then some .InvalidOffset
    else none

/-! ## `CANValue` (value.cc) -/

/-- Modelled from the spec: the class declaration of `CANValue` is in `value.h`, which is
not among the sources; the one field `length` is the one `value.cc` assigns. -/
structure CANValue where
  length : Int
  deriving DecidableEq

/-- The constructor `CANValue::CANValue(int length)`, called `new` as the name of the class
is the name of the type. -/
def CANValue.new (length : Int) : Outcome CANValue :=
  if length < 1 then
    .exited (-3)
      (invalidLengthText ++ ": " ++ decimal length ++ " is less than 1\n")
  else
    .returned { length := length }

/-- Modelled from the spec: `CANValue::getLength` is declared in `value.h`, which is not
among the sources; the specification has it expose `length` as a read-only accessor. -/
def CANValue.getLength (self : CANValue) : Int := self.length

/-! ## `CANSignal` (signal.h, signal.cc) -/

/-- The class `CANSignal`: the private fields `name`, `offset` and the owned `value`. -/
structure CANSignal where
  name : String
  offset : Int
  value : CANValue
  deriving DecidableEq

/-- The constructor `CANSignal::CANSignal(std::string_view name, int offset, int length)`:
the offset check, then the two assignments, then the construction of the owned
`CANValue`, which may itself end the process; the object exists for the caller only when
all of it ran. -/
def CANSignal.new (name : String) (offset length : Int) : Outcome CANSignal :=
  if offset < 0 then
    .exited (-3)
      (invalidOffsetText ++ name ++ ": " ++ decimal offset ++ " is less than 0\n")
  else
    let this_name := name
    let this_offset := offset
    (CANValue.new length).andThen fun value =>
      .returned { name := this_name, offset := this_offset, value := value }

/-- The accessor `getName()`: a member function that is not `const`, so it is given the
object and hands it back together with its result. -/
def CANSignal.getName (self : CANSignal) : String × CANSignal :=
  (self.name, self)

/-- The member function `printSummary()`: three insertions into a string stream, whose
contents are returned.  It is not `const`, so it hands the object back as well. -/
def CANSignal.printSummary (self : CANSignal) : String × CANSignal :=
  let s := ""
  let s := s ++ "    Signal Name: " ++ self.name ++ "\n"
  let s := s ++ "           Length: " ++ decimal self.value.getLength ++ "\n"
  let s := s ++ "           Offset: " ++ decimal self.offset ++ "\n"
  (s, self)

/-! ## Reading a text -/

/-- The lines of a text: the pieces its newline characters separate.  A text in which
every line is ended by a newline has the empty piece last. -/
def textLines (s : String) : List String :=
  (s.data.splitOn '\n').map String.mk

/-- A text without the spaces it starts with. -/
def stripLeadingSpaces (s : String) : String :=
  ⟨s.data.dropWhile (· == ' ')⟩

/-- An indentation of `k` spaces. -/
def indent (k : Nat) : String :=
  ⟨List.replicate k ' '⟩

/-- The number that a string of decimal digits denotes, most significant digit first. -/
def digitsValue (cs : List Char) : Nat :=
  cs.foldl (fun acc c => 10 * acc + (c.toNat - 48)) 0

/-! ## The frame codec of the specification

The sources hold no codec: the specification (§4.3, §9) describes `decode` and `encode` as
the design to build on the data model.  The definitions of this section follow its
words. -/

/-- Modelled from the spec: the frame buffer of §3, a fixed-length sequence of bytes owned
by the caller; no frame buffer type is in the sources. -/
abbrev Frame := List (Fin 256)

/-- Modelled from the spec: the bit-endianness convention of §4.3, an explicit enumerated
parameter (§9); the sources have no such type. -/
inductive Endianness where
  | little
  | big
  deriving DecidableEq

/-- Modelled from the spec: the two codec failures of the taxonomy of §7; the sources have
no codec errors. -/
inductive CodecError where
  | OutOfBounds
  | ValueOverflow
  deriving DecidableEq

/-- Modelled from the spec: bit `k` of a frame, which is bit `k % 8` of byte `k / 8`
(§8: bit 1 of the frame is bit 1 of byte 0); the sources read no frame bit. -/
def getBit (frame : Frame) (k : Nat) : Bool :=
  (frame.getD (k / 8) 0).val.testBit (k % 8)

/-- Modelled from the spec: a byte with its bit `j` made `b`, the other bits kept (the
read-modify-write of §4.3); the sources write no bit. -/
def writeBit (byte : Fin 256) (j : Nat) (b : Bool) : Fin 256 :=
  if byte.val.testBit j = b then byte
  else ⟨(byte.val ^^^ 2 ^ j) % 256, Nat.mod_lt _ (by decide)⟩

/-- Modelled from the spec: a frame with its bit `k` made `b`, by read-modify-write of
the byte that holds it (§4.3); the sources write no frame bit. -/
def setBit (frame : Frame) (k : Nat) (b : Bool) : Frame :=
  frame.set (k / 8) (writeBit (frame.getD (k / 8) 0) (k % 8) b)

/-- Modelled from the spec: the frame bit that holds bit `i` of a signal (§4.3).  For
little-endian, bit 0 of the signal is bit `offset` of the frame; for big-endian the order
is reversed, the bits of the field taken from its last one down, so that both conventions
cover `[offset, offset+length)`.  The sources have no bit arithmetic. -/
def bitPosition (e : Endianness) (offset length i : Nat) : Nat :=
  match e with
  | .little => offset + i
  | .big => offset + (length - 1 - i)

/-- Modelled from the spec: the unsigned integer formed from the signal bits `0 .. n-1`
read from the frame (§4.3); absent from the sources. -/
def decodeBits (frame : Frame) (e : Endianness) (offset length : Nat) : Nat → Nat
  | 0 => 0
  | i + 1 =>
    decodeBits frame e offset length i
      + (if getBit frame (bitPosition e offset length i) then 2 ^ i else 0)

/-- Modelled from the spec: the frame after the signal bits `0 .. n-1` of `value` were
written to it (§4.3); absent from the sources. -/
def encodeBits (frame : Frame) (e : Endianness) (offset length value : Nat) : Nat → Frame
  | 0 => frame
  | i + 1 =>
    setBit (encodeBits frame e offset length value i) (bitPosition e offset length i)
      (value.testBit i)

/-- Modelled from the spec: `FrameCodec::decode` of §4.3, absent from the sources.  It
fails with `OutOfBounds` unless `offset + length <= frame.length_in_bits`, and otherwise
reads `length` bits starting at `offset`. -/
def FrameCodec.decode (frame : Frame) (descriptor : CANSignal) (endianness : Endianness) :
    Except CodecError Nat :=
  if descriptor.offset + descriptor.value.getLength > 8 * (frame.length : Int) then
    .error .OutOfBounds
  else
    .ok (decodeBits frame endianness descriptor.offset.toNat
      descriptor.value.getLength.toNat descriptor.value.getLength.toNat)

/-- Modelled from the spec: `FrameCodec::encode` of §4.3, absent from the sources.  It
makes the bounds check of `decode`, fails with `ValueOverflow` when `value >= 2^length`,
and otherwise writes the bits of the field.  It mutates the caller's frame, so it returns
its result together with the frame after the call. -/
def FrameCodec.encode (frame : Frame) (descriptor : CANSignal) (value : Nat)
    (endianness : Endianness) : Except CodecError Unit × Frame :=
  if descriptor.offset + descriptor.value.getLength > 8 * (frame.length : Int) then
    (.error .OutOfBounds, frame)
  else if value ≥ 2 ^ descriptor.value.getLength.toNat then
    (.error .ValueOverflow, frame)
  else
    (.ok (), encodeBits frame endianness descriptor.offset.toNat
      descriptor.value.getLength.toNat value descriptor.value.getLength.toNat)

/-! ## Helper lemmas -/

theorem failureKind_exited_length {α : Type} (status : Int) (rest : String) :
    (Outcome.exited status (invalidLengthText ++ rest) : Outcome α).failureKind
      = some .InvalidLength := by
  simp [Outcome.failureKind, String.data_append, List.isPrefixOf_iff_prefix]

theorem failureKind_exited_offset {α : Type} (status : Int) (rest : String) :
    (Outcome.exited status (invalidOffsetText ++ rest) : Outcome α).failureKind
      = some .InvalidOffset := by
  have h : invalidLengthText.data.isPrefixOf (invalidOffsetText ++ rest).data = false := by
    rw [String.data_append]
    rfl
  have h2 : invalidOffsetText.data.isPrefixOf (invalidOffsetText ++ rest).data = true := by
    simp [String.data_append, List.isPrefixOf_iff_prefix]
  simp only [Outcome.failureKind, h, h2]
  simp

theorem CANValue.new_of_lt {length : Int} (h : length < 1) :
    CANValue.new length
      = .exited (-3) (invalidLengthText ++ ": " ++ decimal length ++ " is less than 1\n") := by
  simp [CANValue.new, h]

theorem CANValue.new_of_le {length : Int} (h : 1 ≤ length) :
    CANValue.new length = .returned { length := length } := by
  simp [CANValue.new, not_lt.mpr h]

theorem CANSignal.new_of_neg (name : String) {offset : Int} (length : Int) (h : offset < 0) :
    CANSignal.new name offset length
      = .exited (-3)
          (invalidOffsetText ++ name ++ ": " ++ decimal offset ++ " is less than 0\n") := by
  simp [CANSignal.new, h]

theorem CANSignal.new_of_nonneg (name : String) {offset : Int} (length : Int)
    (h : 0 ≤ offset) :
    CANSignal.new name offset length
      = (CANValue.new length).andThen fun value =>
          .returned { name := name, offset := offset, value := value } := by
  simp [CANSignal.new, not_lt.mpr h]

theorem CANSignal.new_eq_returned_iff (name : String) (offset length : Int) (s : CANSignal) :
    CANSignal.new name offset length = .returned s ↔
      0 ≤ offset ∧ 1 ≤ length ∧
        s = { name := name, offset := offset, value := { length := length } } := by
  constructor
  · intro h
    by_cases ho : offset < 0
    · rw [CANSignal.new_of_neg name length ho] at h
      cases h
    · by_cases hl : length < 1
      · rw [CANSignal.new_of_nonneg name length (not_lt.mp ho), CANValue.new_of_lt hl] at h
        cases h
      · rw [CANSignal.new_of_nonneg name length (not_lt.mp ho),
          CANValue.new_of_le (not_lt.mp hl)] at h
        simp only [Outcome.andThen, Outcome.returned.injEq] at h
        exact ⟨not_lt.mp ho, not_lt.mp hl, h.symm⟩
  · rintro ⟨ho, hl, rfl⟩
    rw [CANSignal.new_of_nonneg name length ho, CANValue.new_of_le hl]
    rfl

theorem CANSignal.new_exited_of_invalid (name : String) (offset length : Int)
    (h : offset < 0 ∨ length < 1) :
    ∃ status err, CANSignal.new name offset length = .exited status err := by
  by_cases ho : offset < 0
  · exact ⟨_, _, CANSignal.new_of_neg name length ho⟩
  · have hl : length < 1 := h.resolve_left ho
    refine ⟨-3, invalidLengthText ++ ": " ++ decimal length ++ " is less than 1\n", ?_⟩
    rw [CANSignal.new_of_nonneg name length (not_lt.mp ho), CANValue.new_of_lt hl]
    rfl

/-! ### Decimal numerals -/

theorem digitChar_isDigit (d : Nat) (h : d < 10) : (Nat.digitChar d).isDigit = true := by
  interval_cases d <;> decide

theorem digitChar_value (d : Nat) (h : d < 10) : (Nat.digitChar d).toNat - 48 = d := by
  interval_cases d <;> decide

theorem toDigitsCore_isDigit (fuel : Nat) : ∀ (n : Nat) (ds : List Char),
    (∀ c ∈ ds, c.isDigit = true) →
      ∀ c ∈ Nat.toDigitsCore 10 fuel n ds, c.isDigit = true := by
  induction fuel with
  | zero => intro n ds h; simpa [Nat.toDigitsCore] using h
  | succ fuel ih =>
    intro n ds h
    have hds : ∀ c ∈ Nat.digitChar (n % 10) :: ds, c.isDigit = true := by
      intro c hc
      rcases List.mem_cons.mp hc with rfl | hc
      · exact digitChar_isDigit _ (Nat.mod_lt _ (by decide))
      · exact h c hc
    simp only [Nat.toDigitsCore]
    split
    · exact hds
    · exact ih _ _ hds

theorem toDigitsCore_append (fuel : Nat) : ∀ (n : Nat) (ds : List Char),
    Nat.toDigitsCore 10 fuel n ds = Nat.toDigitsCore 10 fuel n [] ++ ds := by
  induction fuel with
  | zero => intro n ds; simp [Nat.toDigitsCore]
  | succ fuel ih =>
    intro n ds
    simp only [Nat.toDigitsCore]
    split
    · simp
    · rw [ih _ (_ :: ds), ih _ [_]]
      simp

theorem digitsValue_append_singleton (cs : List Char) (c : Char) :
    digitsValue (cs ++ [c]) = 10 * digitsValue cs + (c.toNat - 48) := by
  simp [digitsValue, List.foldl_append]

theorem digitsValue_toDigitsCore (fuel : Nat) : ∀ n : Nat, n < fuel →
    digitsValue (Nat.toDigitsCore 10 fuel n []) = n := by
  induction fuel with
  | zero => intro n h; omega
  | succ fuel ih =>
    intro n h
    simp only [Nat.toDigitsCore]
    split
    · simp [digitsValue, digitChar_value _ (Nat.mod_lt n (by decide : 0 < 10))]
      omega
    · rw [toDigitsCore_append, digitsValue_append_singleton, ih _ (by omega),
        digitChar_value _ (Nat.mod_lt n (by decide : 0 < 10))]
      omega

theorem decimal_ofNat (n : Nat) : decimal (n : Int) = ⟨Nat.toDigitsCore 10 (n + 1) n []⟩ :=
  rfl

theorem decimal_isDigit {i : Int} (h : 0 ≤ i) : ∀ c ∈ (decimal i).data, c.isDigit = true := by
  obtain ⟨n, rfl⟩ := Int.eq_ofNat_of_zero_le h
  rw [decimal_ofNat]
  exact toDigitsCore_isDigit _ _ _ (by simp)

theorem decimal_all_isDigit {i : Int} (h : 0 ≤ i) :
    (decimal i).data.all Char.isDigit = true := by
  rw [List.all_eq_true]
  exact decimal_isDigit h

theorem digitsValue_decimal {i : Int} (h : 0 ≤ i) :
    (digitsValue (decimal i).data : Int) = i := by
  obtain ⟨n, rfl⟩ := Int.eq_ofNat_of_zero_le h
  rw [decimal_ofNat, digitsValue_toDigitsCore _ _ (Nat.lt_succ_self n)]

theorem newline_not_mem_decimal {i : Int} (h : 0 ≤ i) : '\n' ∉ (decimal i).data := by
  intro hmem
  have := decimal_isDigit h _ hmem
  revert this
  decide

/-! ### Lines and indentation -/

theorem textLines_three (a b c : String) (ha : '\n' ∉ a.data) (hb : '\n' ∉ b.data)
    (hc : '\n' ∉ c.data) :
    textLines (a ++ "\n" ++ b ++ "\n" ++ c ++ "\n") = [a, b, c, ""] := by
  have h : (a ++ "\n" ++ b ++ "\n" ++ c ++ "\n").data
      = ['\n'].intercalate [a.data, b.data, c.data, []] := by
    simp [String.data_append, List.intercalate, List.intersperse]
  unfold textLines
  rw [h, List.splitOn_intercalate]
  · rfl
  · intro l hl
    simp only [List.mem_cons, List.mem_singleton, List.not_mem_nil, or_false] at hl
    rcases hl with rfl | rfl | rfl | rfl
    · exact ha
    · exact hb
    · exact hc
    · simp
  · simp

theorem stripLeadingSpaces_indent (k : Nat) (t : String)
    (ht : t.data.dropWhile (· == ' ') = t.data) :
    stripLeadingSpaces (indent k ++ t) = t := by
  have h : ∀ k : Nat, (List.replicate k ' ' ++ t.data).dropWhile (· == ' ') = t.data := by
    intro k
    induction k with
    | zero => simpa using ht
    | succ k ih => simpa [List.replicate_succ] using ih
  unfold stripLeadingSpaces indent
  rw [String.data_append, h k]

theorem printSummary_text (s : CANSignal) :
    s.printSummary.1
      = (indent 4 ++ ("Signal Name: " ++ s.name)) ++ "\n"
        ++ (indent 11 ++ ("Length: " ++ decimal s.value.getLength)) ++ "\n"
        ++ (indent 11 ++ ("Offset: " ++ decimal s.offset)) ++ "\n" := by
  apply String.ext
  simp only [CANSignal.printSummary, String.data_append]
  simp [indent, List.replicate]

/-! ### Frame bits -/

theorem testBit_writeBit (byte : Fin 256) (j i : Nat) (b : Bool) (hi : i < 8) :
    (writeBit byte j b).val.testBit i = if i = j then b else byte.val.testBit i := by
  unfold writeBit
  split
  · rename_i h
    split
    · rename_i hij; rw [hij, h]
    · rfl
  · rename_i h
    have h256 : (256 : Nat) = 2 ^ 8 := by norm_num
    simp only [h256, Nat.testBit_mod_two_pow, hi, decide_True, Bool.true_and, Nat.testBit_xor,
      Nat.testBit_two_pow]
    by_cases hij : i = j
    · subst hij
      simp
      cases hb : (byte.val.testBit i) <;> cases b <;> simp_all
    · have : ¬ j = i := fun h' => hij h'.symm
      simp [hij, this]

theorem length_setBit (frame : Frame) (k : Nat) (b : Bool) :
    (setBit frame k b).length = frame.length := by
  simp [setBit]

theorem getBit_setBit (frame : Frame) (k k' : Nat) (b : Bool) (hk : k < 8 * frame.length) :
    getBit (setBit frame k b) k' = if k' = k then b else getBit frame k' := by
  have hi : k' % 8 < 8 := Nat.mod_lt _ (by decide)
  have hlen : k / 8 < frame.length := by omega
  unfold getBit setBit
  by_cases hq : k' / 8 = k / 8
  · rw [hq]
    have : (frame.set (k / 8) (writeBit (frame.getD (k / 8) 0) (k % 8) b)).getD (k / 8) 0
        = writeBit (frame.getD (k / 8) 0) (k % 8) b := by
      simp [List.getD_eq_getElem?_getD, List.getElem?_set, hlen]
    rw [this, testBit_writeBit _ _ _ _ hi]
    by_cases hr : k' % 8 = k % 8
    · have : k' = k := by omega
      simp [hr, this]
    · have : k' ≠ k := by intro h; apply hr; rw [h]
      simp [hr, this]
  · have hne : k' ≠ k := by intro h; apply hq; rw [h]
    have : (frame.set (k / 8) (writeBit (frame.getD (k / 8) 0) (k % 8) b)).getD (k' / 8) 0
        = frame.getD (k' / 8) 0 := by
      have hq' : ¬ k / 8 = k' / 8 := fun h => hq h.symm
      simp [List.getD_eq_getElem?_getD, List.getElem?_set, hq']
    rw [this]
    simp [hne]

theorem bitPosition_range (e : Endianness) (offset length i : Nat) (hi : i < length) :
    offset ≤ bitPosition e offset length i ∧
      bitPosition e offset length i < offset + length := by
  cases e <;> simp [bitPosition] <;> omega

theorem bitPosition_inj (e : Endianness) (offset length i j : Nat) (hi : i < length)
    (hj : j < length) (h : bitPosition e offset length i = bitPosition e offset length j) :
    i = j := by
  cases e <;> simp [bitPosition] at h <;> omega

theorem length_encodeBits (frame : Frame) (e : Endianness) (offset length value n : Nat) :
    (encodeBits frame e offset length value n).length = frame.length := by
  induction n with
  | zero => rfl
  | succ n ih => simp [encodeBits, length_setBit, ih]

theorem getBit_encodeBits_outside (frame : Frame) (e : Endianness)
    (offset length value : Nat) (hb : offset + length ≤ 8 * frame.length) (k : Nat) :
    ∀ n, n ≤ length → (∀ i, i < n → bitPosition e offset length i ≠ k) →
      getBit (encodeBits frame e offset length value n) k = getBit frame k := by
  intro n
  induction n with
  | zero => intro _ _; rfl
  | succ n ih =>
    intro hn hk
    have hr := bitPosition_range e offset length n (by omega)
    simp only [encodeBits]
    rw [getBit_setBit _ _ _ _ (by rw [length_encodeBits]; omega)]
    have hne : k ≠ bitPosition e offset length n := fun h => hk n (by omega) h.symm
    simp only [hne, if_false]
    exact ih (by omega) (fun i hi => hk i (by omega))

theorem getBit_encodeBits_inside (frame : Frame) (e : Endianness)
    (offset length value : Nat) (hb : offset + length ≤ 8 * frame.length) :
    ∀ n, n ≤ length → ∀ i, i < n →
      getBit (encodeBits frame e offset length value n) (bitPosition e offset length i)
        = value.testBit i := by
  intro n
  induction n with
  | zero => intro _ i hi; omega
  | succ n ih =>
    intro hn i hi
    have hr := bitPosition_range e offset length n (by omega)
    simp only [encodeBits]
    rw [getBit_setBit _ _ _ _ (by rw [length_encodeBits]; omega)]
    by_cases hin : i = n
    · subst hin; simp
    · have hne : bitPosition e offset length i ≠ bitPosition e offset length n := by
        intro h
        exact hin (bitPosition_inj e offset length i n (by omega) (by omega) h)
      simp only [hne, if_false]
      exact ih (by omega) i (by omega)

theorem decodeBits_eq_mod (frame : Frame) (e : Endianness) (offset length value : Nat) :
    ∀ n, (∀ i, i < n → getBit frame (bitPosition e offset length i) = value.testBit i) →
      decodeBits frame e offset length n = value % 2 ^ n := by
  intro n
  induction n with
  | zero => intro _; simp [decodeBits, Nat.mod_one]
  | succ n ih =>
    intro h
    simp only [decodeBits]
    rw [ih (fun i hi => h i (by omega)), h n (by omega), Nat.mod_pow_succ,
      Nat.testBit_to_div_mod]
    have h2 : value / 2 ^ n % 2 < 2 := Nat.mod_lt _ (by decide)
    rcases Nat.lt_succ_iff_lt_or_eq.mp h2 with h0 | h1
    · have h0' : value / 2 ^ n % 2 = 0 := by omega
      simp [h0']
    · simp [h1]

/-! ### Diagnostics -/

theorem newline_not_mem_decimal_int (i : Int) : '\n' ∉ (decimal i).data := by
  cases i with
  | ofNat n => exact newline_not_mem_decimal (Int.ofNat_nonneg n)
  | negSucc n =>
    have h : decimal (Int.negSucc n) = "-" ++ decimal ((n + 1 : Nat) : Int) := rfl
    rw [h, String.data_append, List.mem_append, not_or]
    exact ⟨by decide, newline_not_mem_decimal (Int.ofNat_nonneg (n + 1))⟩

theorem textLines_one (a s : String) (hs : s.data = a.data ++ ['\n'])
    (ha : '\n' ∉ a.data) : textLines s = [a, ""] := by
  have h : s.data = ['\n'].intercalate [a.data, []] := by
    simp [hs, List.intercalate, List.intersperse]
  unfold textLines
  rw [h, List.splitOn_intercalate]
  · rfl
  · intro l hl
    simp only [List.mem_cons, List.mem_singleton, List.not_mem_nil, or_false] at hl
    rcases hl with rfl | rfl
    · exact ha
    · simp
  · simp

theorem lengthDiagnostic_lines (length : Int) :
    textLines (invalidLengthText ++ ": " ++ decimal length ++ " is less than 1\n")
      = [invalidLengthText ++ ": " ++ decimal length ++ " is less than 1", ""] := by
  apply textLines_one
  · simp only [String.data_append, List.append_assoc]
    rfl
  · simp only [String.data_append, List.mem_append, not_or]
    exact ⟨⟨⟨by decide, by decide⟩, newline_not_mem_decimal_int length⟩, by decide⟩

theorem offsetDiagnostic_lines (name : String) (offset : Int) (hn : '\n' ∉ name.data) :
    textLines (invalidOffsetText ++ name ++ ": " ++ decimal offset ++ " is less than 0\n")
      = [invalidOffsetText ++ name ++ ": " ++ decimal offset ++ " is less than 0", ""] := by
  apply textLines_one
  · simp only [String.data_append, List.append_assoc]
    rfl
  · simp only [String.data_append, List.mem_append, not_or]
    exact ⟨⟨⟨⟨by decide, hn⟩, by decide⟩, newline_not_mem_decimal_int offset⟩, by decide⟩

theorem offsetDiagnostic_ne_lengthDiagnostic (name : String) (offset length : Int) :
    invalidOffsetText ++ name ++ ": " ++ decimal offset ++ " is less than 0\n"
      ≠ invalidLengthText ++ ": " ++ decimal length ++ " is less than 1\n" := by
  intro h
  have ho := @failureKind_exited_offset Unit 0
    (name ++ (": " ++ (decimal offset ++ " is less than 0\n")))
  have hl := @failureKind_exited_length Unit 0
    (": " ++ (decimal length ++ " is less than 1\n"))
  simp only [← String.append_assoc] at ho hl
  rw [h, hl] at ho
  cases ho

/-! ### The scenario of the specification -/

theorem encode_scenario :
    FrameCodec.encode (List.replicate 8 0)
      { name := "VCFRONT_driverIsLeaving", offset := 1, value := { length := 1 } } 1 .little
      = (.ok (), [2, 0, 0, 0, 0, 0, 0, 0]) ∧
    FrameCodec.decode [2, 0, 0, 0, 0, 0, 0, 0]
      { name := "VCFRONT_driverIsLeaving", offset := 1, value := { length := 1 } } .little
      = .ok 1 :=
  ⟨rfl, rfl⟩

/-! ## Construction -/

/-- C1: constructing a `CANValue` fails with `InvalidLength` exactly when `length < 1`, and
for every `length >= 1` it succeeds and the stored length, as `getLength` reads it, is the
argument. -/
theorem CANValue.new_spec (length : Int) :
    ((CANValue.new length).failureKind = some .InvalidLength ↔ length < 1) ∧
    (1 ≤ length →
      ∃ v, CANValue.new length = .returned v ∧ v.getLength = length ∧ v.length = length) := by
  constructor
  · constructor
    · intro hf
      by_contra hge
      rw [CANValue.new_of_le (not_lt.mp hge)] at hf
      simp [Outcome.failureKind] at hf
    · intro hlt
      rw [CANValue.new_of_lt hlt, String.append_assoc, String.append_assoc]
      exact failureKind_exited_length _ _
  · intro hge
    exact ⟨{ length := length }, CANValue.new_of_le hge, rfl, rfl⟩

theorem CANValue.new_spec_witness :
    ((CANValue.new 0).failureKind = some .InvalidLength ↔ (0 : Int) < 1) ∧
    ∃ v, CANValue.new 8 = .returned v ∧ v.getLength = 8 ∧ v.length = 8 :=
  ⟨(CANValue.new_spec 0).1, (CANValue.new_spec 8).2 (by decide)⟩

/-- C2: with a negative offset the construction of a `CANSignal` fails with
`InvalidOffset`, whatever the name and whatever the length, a length below 1 included:
the offset is checked first. -/
theorem CANSignal.new_invalidOffset (name : String) (offset length : Int)
    (h : offset < 0) :
    (CANSignal.new name offset length).failureKind = some .InvalidOffset ∧
    (CANSignal.new name offset length).failureKind ≠ some .InvalidLength := by
  have hk : (CANSignal.new name offset length).failureKind = some .InvalidOffset := by
    rw [CANSignal.new_of_neg name length h, String.append_assoc, String.append_assoc,
      String.append_assoc]
    exact failureKind_exited_offset _ _
  exact ⟨hk, by rw [hk]; decide⟩

theorem CANSignal.new_invalidOffset_witness :
    (CANSignal.new "VCFRONT_driverIsLeaving" (-1) 0).failureKind = some .InvalidOffset ∧
    (CANSignal.new "VCFRONT_driverIsLeaving" (-1) 0).failureKind ≠ some .InvalidLength :=
  CANSignal.new_invalidOffset "VCFRONT_driverIsLeaving" (-1) 0 (by decide)

/-- C3: with an offset that passes the check and a length below 1 the construction of a
`CANSignal` fails with `InvalidLength`, and the failure is the very one of constructing a
`CANValue` from that length: same exit status, same diagnostic. -/
theorem CANSignal.new_invalidLength (name : String) (offset length : Int)
    (ho : 0 ≤ offset) (hl : length < 1) :
    (CANSignal.new name offset length).failureKind = some .InvalidLength ∧
    ∃ status err, CANValue.new length = .exited status err ∧
      CANSignal.new name offset length = .exited status err := by
  have hv := CANValue.new_of_lt hl
  have hs : CANSignal.new name offset length
      = .exited (-3) (invalidLengthText ++ ": " ++ decimal length ++ " is less than 1\n") := by
    rw [CANSignal.new_of_nonneg name length ho, hv]
    rfl
  refine ⟨?_, _, _, hv, hs⟩
  rw [hs, String.append_assoc, String.append_assoc]
  exact failureKind_exited_length _ _

theorem CANSignal.new_invalidLength_witness :
    (CANSignal.new "VCFRONT_driverIsLeaving" 1 0).failureKind = some .InvalidLength ∧
    ∃ status err, CANValue.new 0 = .exited status err ∧
      CANSignal.new "VCFRONT_driverIsLeaving" 1 0 = .exited status err :=
  CANSignal.new_invalidLength "VCFRONT_driverIsLeaving" 1 0 (by decide) (by decide)

/-- C4: with `offset >= 0` and `length >= 1` the construction of a `CANSignal` succeeds,
and the name (as `getName` returns it), the offset and the length of the owned value are
the three arguments.  Nothing bounds `offset + length`. -/
theorem CANSignal.new_valid (name : String) (offset length : Int)
    (ho : 0 ≤ offset) (hl : 1 ≤ length) :
    ∃ s, CANSignal.new name offset length = .returned s ∧
      s.getName.1 = name ∧ s.name = name ∧ s.offset = offset ∧
      s.value.getLength = length := by
  refine ⟨{ name := name, offset := offset, value := { length := length } }, ?_,
    rfl, rfl, rfl, rfl⟩
  rw [CANSignal.new_of_nonneg name length ho, CANValue.new_of_le hl]
  rfl

theorem CANSignal.new_valid_witness :
    ∃ s, CANSignal.new "wide" 60 9 = .returned s ∧
      s.getName.1 = "wide" ∧ s.name = "wide" ∧ s.offset = 60 ∧ s.value.getLength = 9 :=
  CANSignal.new_valid "wide" 60 9 (by decide) (by decide)

/-! ## The summary text -/

/-- C5, as the claim states it, fails: a name may hold a newline.  The signal constructed
from the name `a`, newline, `b` with offset 1 and length 1 has a summary of four
newline-terminated lines, and the first of them does not hold the whole name. -/
theorem CANSignal.printSummary_lines_counterexample :
    CANSignal.new "a\nb" 1 1
      = .returned { name := "a\nb", offset := 1, value := { length := 1 } } ∧
    ({ name := "a\nb", offset := 1, value := { length := 1 } } : CANSignal).printSummary.1
      = "    Signal Name: a\nb\n           Length: 1\n           Offset: 1\n" ∧
    textLines
        ({ name := "a\nb", offset := 1, value := { length := 1 } } : CANSignal).printSummary.1
      = ["    Signal Name: a", "b", "           Length: 1", "           Offset: 1", ""] ∧
    textLines
        ({ name := "a\nb", offset := 1, value := { length := 1 } } : CANSignal).printSummary.1
      ≠ [indent 4 ++ ("Signal Name: " ++ "a\nb"), indent 11 ++ ("Length: " ++ decimal 1),
          indent 11 ++ ("Offset: " ++ decimal 1), ""] := by
  decide

/-- C5, amended: for every successfully constructed `CANSignal` whose name holds no
newline character, `printSummary` returns exactly three newline-terminated lines, in the
order name, length, offset: `Signal Name: n`, `Length: l` and `Offset: o` behind 4, 11 and
11 spaces, where `l` and `o` are written in decimal digits. -/
theorem CANSignal.printSummary_lines (name : String) (offset length : Int) (s : CANSignal)
    (hs : CANSignal.new name offset length = .returned s) (hn : '\n' ∉ name.data) :
    textLines s.printSummary.1
      = [indent 4 ++ ("Signal Name: " ++ name), indent 11 ++ ("Length: " ++ decimal length),
          indent 11 ++ ("Offset: " ++ decimal offset), ""] ∧
    (textLines s.printSummary.1).map stripLeadingSpaces
      = ["Signal Name: " ++ name, "Length: " ++ decimal length,
          "Offset: " ++ decimal offset, ""] ∧
    ((decimal length).data.all Char.isDigit = true ∧
      (digitsValue (decimal length).data : Int) = length) ∧
    ((decimal offset).data.all Char.isDigit = true ∧
      (digitsValue (decimal offset).data : Int) = offset) := by
  obtain ⟨ho, hl, rfl⟩ := (CANSignal.new_eq_returned_iff name offset length s).mp hs
  have hl0 : (0 : Int) ≤ length := by omega
  have hlines : textLines
      ({ name := name, offset := offset, value := { length := length } } :
        CANSignal).printSummary.1
      = [indent 4 ++ ("Signal Name: " ++ name), indent 11 ++ ("Length: " ++ decimal length),
          indent 11 ++ ("Offset: " ++ decimal offset), ""] := by
    rw [printSummary_text]
    apply textLines_three
    · simp only [String.data_append, List.mem_append, not_or]
      exact ⟨by decide, by decide, hn⟩
    · simp only [String.data_append, List.mem_append, not_or]
      exact ⟨by decide, by decide, newline_not_mem_decimal hl0⟩
    · simp only [String.data_append, List.mem_append, not_or]
      exact ⟨by decide, by decide, newline_not_mem_decimal ho⟩
  refine ⟨hlines, ?_, ⟨decimal_all_isDigit hl0, digitsValue_decimal hl0⟩,
    ⟨decimal_all_isDigit ho, digitsValue_decimal ho⟩⟩
  rw [hlines]
  simp only [List.map_cons, List.map_nil]
  rw [stripLeadingSpaces_indent 4 _ (by rw [String.data_append]; rfl),
    stripLeadingSpaces_indent 11 _ (by rw [String.data_append]; rfl),
    stripLeadingSpaces_indent 11 _ (by rw [String.data_append]; rfl)]
  rfl

theorem CANSignal.printSummary_lines_witness :
    CANSignal.new "VCFRONT_driverIsLeaving" 1 1
      = .returned { name := "VCFRONT_driverIsLeaving", offset := 1, value := { length := 1 } } ∧
    textLines ({ name := "VCFRONT_driverIsLeaving", offset := 1, value := { length := 1 } } :
        CANSignal).printSummary.1
      = ["    Signal Name: VCFRONT_driverIsLeaving", "           Length: 1",
          "           Offset: 1", ""] ∧
    (textLines ({ name := "VCFRONT_driverIsLeaving", offset := 1, value := { length := 1 } } :
        CANSignal).printSummary.1).map stripLeadingSpaces
      = ["Signal Name: VCFRONT_driverIsLeaving", "Length: 1", "Offset: 1", ""] :=
  have h := CANSignal.printSummary_lines "VCFRONT_driverIsLeaving" 1 1
    { name := "VCFRONT_driverIsLeaving", offset := 1, value := { length := 1 } }
    (by decide) (by decide)
  ⟨by decide, h.1, h.2.1⟩

/-! ## Construction: what a caller can observe -/

/-- C6: construction of a `CANSignal` is all-or-nothing.  Either it returns a signal
whose three fields are the arguments, with `offset >= 0` and `length >= 1`, or the process
ends, nothing is returned and no code placed after the construction receives an object.
When `offset >= 0` and `length < 1` the outcome is the same for every name and every
offset that passes the check: what was assigned before the length check cannot be
observed. -/
theorem CANSignal.new_all_or_nothing (name : String) (offset length : Int) :
    ((∃ s, CANSignal.new name offset length = .returned s ∧
        s.name = name ∧ s.offset = offset ∧ s.value.length = length ∧
        0 ≤ s.offset ∧ 1 ≤ s.value.length) ∨
     (∃ status err, CANSignal.new name offset length = .exited status err ∧
        ∀ (β : Type) (k : CANSignal → Outcome β),
          (CANSignal.new name offset length).andThen k = .exited status err)) ∧
    (0 ≤ offset → length < 1 → ∀ (name' : String) (offset' : Int), 0 ≤ offset' →
      CANSignal.new name offset length = CANSignal.new name' offset' length) := by
  constructor
  · by_cases hv : offset < 0 ∨ length < 1
    · right
      obtain ⟨status, err, h⟩ := CANSignal.new_exited_of_invalid name offset length hv
      refine ⟨status, err, h, ?_⟩
      intro β k
      rw [h]
      rfl
    · left
      push_neg at hv
      exact ⟨{ name := name, offset := offset, value := { length := length } },
        (CANSignal.new_eq_returned_iff name offset length _).mpr ⟨hv.1, hv.2, rfl⟩,
        rfl, rfl, rfl, hv.1, hv.2⟩
  · intro ho hl name' offset' ho'
    rw [CANSignal.new_of_nonneg name length ho, CANSignal.new_of_nonneg name' length ho',
      CANValue.new_of_lt hl]
    rfl

theorem CANSignal.new_all_or_nothing_witness :
    CANSignal.new "VCFRONT_driverIsLeaving" 1 0 = CANSignal.new "other" 7 0 :=
  (CANSignal.new_all_or_nothing "VCFRONT_driverIsLeaving" 1 0).2
    (by decide) (by decide) "other" 7 (by decide)

/-- C7, as the claim states it, fails: constructing a `CANValue` from length 0, or a
`CANSignal` from offset -1, does not return to the caller; the process ends with status
-3. -/
theorem construction_returns_counterexample :
    (CANValue.new 0).isReturned = false ∧
    CANValue.new 0
      = .exited (-3) "Invalid length while constructing value: 0 is less than 1\n" ∧
    (CANSignal.new "VCFRONT_driverIsLeaving" (-1) 1).isReturned = false ∧
    CANSignal.new "VCFRONT_driverIsLeaving" (-1) 1
      = .exited (-3)
          "Invalid offset while constructing signal VCFRONT_driverIsLeaving: -1 is less than 0\n" := by
  decide

/-- C7, amended: constructing a `CANValue` from a length below 1, or a `CANSignal` from an
offset below 0 or a length below 1, ends the process through `std::exit`: nothing is
returned to the caller, and whatever the caller would do next does not run. -/
theorem construction_failure_ends_process :
    (∀ length : Int, length < 1 →
      (CANValue.new length).isExited = true ∧
      ∀ (β : Type) (k : CANValue → Outcome β),
        (CANValue.new length).andThen k
          = .exited (-3) (invalidLengthText ++ ": " ++ decimal length ++ " is less than 1\n")) ∧
    (∀ (name : String) (offset length : Int), offset < 0 ∨ length < 1 →
      (CANSignal.new name offset length).isExited = true ∧
      ∃ status err, ∀ (β : Type) (k : CANSignal → Outcome β),
        (CANSignal.new name offset length).andThen k = .exited status err) := by
  constructor
  · intro length hl
    rw [CANValue.new_of_lt hl]
    exact ⟨rfl, fun _ _ => rfl⟩
  · intro name offset length hv
    obtain ⟨status, err, h⟩ := CANSignal.new_exited_of_invalid name offset length hv
    rw [h]
    exact ⟨rfl, status, err, fun _ _ => rfl⟩

theorem construction_failure_ends_process_witness :
    ((CANValue.new 0).isExited = true ∧
      (CANValue.new 0).andThen (fun v => Outcome.returned v.getLength)
        = .exited (-3) "Invalid length while constructing value: 0 is less than 1\n") ∧
    (CANSignal.new "VCFRONT_driverIsLeaving" (-1) 1).isExited = true :=
  ⟨⟨(construction_failure_ends_process.1 0 (by decide)).1,
    (construction_failure_ends_process.1 0 (by decide)).2 Int
      (fun v => Outcome.returned v.getLength)⟩,
   (construction_failure_ends_process.2 "VCFRONT_driverIsLeaving" (-1) 1
     (Or.inl (by decide))).1⟩

/-- C8, as the claim states it, fails: construction with the empty name, offset 0 and
length 1 returns a signal, and its name is empty. -/
theorem CANSignal.new_empty_name_counterexample :
    ∃ s, CANSignal.new "" 0 1 = .returned s ∧ s.name = "" ∧ s.getName.1 = "" :=
  ⟨{ name := "", offset := 0, value := { length := 1 } }, by decide, rfl, rfl⟩

/-- C8, amended: the name is not checked at construction.  Whether a construction
returns a signal is the same for every two names, and a constructed signal carries the
name it was given, so that its name is non-empty exactly when the given name was. -/
theorem CANSignal.new_name_unchecked (name : String) (offset length : Int) :
    (∀ name' : String, (CANSignal.new name offset length).isReturned
        = (CANSignal.new name' offset length).isReturned) ∧
    (∀ s, CANSignal.new name offset length = .returned s →
      s.name = name ∧ (s.name ≠ "" ↔ name ≠ "")) := by
  constructor
  · intro name'
    by_cases ho : offset < 0
    · rw [CANSignal.new_of_neg name length ho, CANSignal.new_of_neg name' length ho]
      rfl
    · rw [CANSignal.new_of_nonneg name length (not_lt.mp ho),
        CANSignal.new_of_nonneg name' length (not_lt.mp ho)]
      cases CANValue.new length <;> rfl
  · intro s hs
    obtain ⟨_, _, rfl⟩ := (CANSignal.new_eq_returned_iff name offset length s).mp hs
    exact ⟨rfl, Iff.rfl⟩

theorem CANSignal.new_name_unchecked_witness :
    ({ name := "", offset := 0, value := { length := 1 } } : CANSignal).name = "" ∧
    ((({ name := "", offset := 0, value := { length := 1 } } : CANSignal).name ≠ "") ↔
      ("" : String) ≠ "") :=
  (CANSignal.new_name_unchecked "" 0 1).2 _ (by decide)

/-! ## Reading a signal -/

/-- C9: `printSummary` and `getName` only read the signal.  Each hands the object back
as it was, so name, offset and length are what they were, and a second `printSummary`
returns the string of the first. -/
theorem CANSignal.reads_are_pure (s : CANSignal) :
    s.printSummary.2 = s ∧ s.getName.2 = s ∧
    s.printSummary.2.name = s.name ∧ s.printSummary.2.offset = s.offset ∧
    s.printSummary.2.value.getLength = s.value.getLength ∧
    s.getName.2.name = s.name ∧ s.getName.2.offset = s.offset ∧
    s.getName.2.value.getLength = s.value.getLength ∧
    s.printSummary.2.printSummary.1 = s.printSummary.1 ∧
    s.getName.2.printSummary.1 = s.printSummary.1 ∧
    s.printSummary.2.getName.1 = s.getName.1 :=
  ⟨rfl, rfl, rfl, rfl, rfl, rfl, rfl, rfl, rfl, rfl, rfl⟩

/-! ## The frame codec -/

/-- C10: codec round trip, on the codec modelled from the specification.  For every frame, every constructed descriptor whose
`offset + length` is within the bit width of the frame, every value below `2^length` and
either bit order, `encode` succeeds, `decode` of the frame it leaves returns the value, the
frame keeps its length, and every bit outside `[offset, offset+length)` is the bit the
frame had before. -/
theorem FrameCodec.round_trip (frame : Frame) (name : String) (offset length : Int)
    (d : CANSignal) (value : Nat) (e : Endianness)
    (hd : CANSignal.new name offset length = .returned d)
    (hb : d.offset + d.value.getLength ≤ 8 * (frame.length : Int))
    (hv : value < 2 ^ d.value.getLength.toNat) :
    (FrameCodec.encode frame d value e).1 = .ok () ∧
    FrameCodec.decode (FrameCodec.encode frame d value e).2 d e = .ok value ∧
    (FrameCodec.encode frame d value e).2.length = frame.length ∧
    ∀ k : Nat, ((k : Int) < d.offset ∨ d.offset + d.value.getLength ≤ (k : Int)) →
      getBit (FrameCodec.encode frame d value e).2 k = getBit frame k := by
  obtain ⟨ho, hl, rfl⟩ := (CANSignal.new_eq_returned_iff name offset length d).mp hd
  simp only [CANValue.getLength] at hb hv ⊢
  obtain ⟨o, rfl⟩ := Int.eq_ofNat_of_zero_le ho
  obtain ⟨l, rfl⟩ := Int.eq_ofNat_of_zero_le (by omega : (0 : Int) ≤ length)
  simp only [Int.toNat_ofNat] at hv
  have hbN : o + l ≤ 8 * frame.length := by omega
  have henc : FrameCodec.encode frame
      { name := name, offset := (o : Int), value := { length := (l : Int) } } value e
      = (.ok (), encodeBits frame e o l value l) := by
    simp only [FrameCodec.encode, CANValue.getLength, Int.toNat_ofNat]
    rw [if_neg (by omega), if_neg (by omega)]
  rw [henc]
  refine ⟨rfl, ?_, length_encodeBits _ _ _ _ _ _, ?_⟩
  · simp only [FrameCodec.decode, CANValue.getLength, Int.toNat_ofNat, length_encodeBits]
    rw [if_neg (by omega),
      decodeBits_eq_mod _ e o l value l
        (getBit_encodeBits_inside frame e o l value hbN l (le_refl l)),
      Nat.mod_eq_of_lt hv]
  · intro k hk
    apply getBit_encodeBits_outside frame e o l value hbN k l (le_refl l)
    intro i hi hpos
    have hr := bitPosition_range e o l i hi
    omega

theorem FrameCodec.round_trip_witness :
    (FrameCodec.encode (List.replicate 8 0)
      { name := "VCFRONT_driverIsLeaving", offset := 1, value := { length := 1 } }
      1 .little).1 = .ok () ∧
    FrameCodec.decode
      (FrameCodec.encode (List.replicate 8 0)
        { name := "VCFRONT_driverIsLeaving", offset := 1, value := { length := 1 } }
        1 .little).2
      { name := "VCFRONT_driverIsLeaving", offset := 1, value := { length := 1 } }
      .little = .ok 1 ∧
    (FrameCodec.encode (List.replicate 8 0)
      { name := "VCFRONT_driverIsLeaving", offset := 1, value := { length := 1 } }
      1 .little).2.length = 8 ∧
    getBit (FrameCodec.encode (List.replicate 8 0)
        { name := "VCFRONT_driverIsLeaving", offset := 1, value := { length := 1 } }
        1 .little).2 0 = getBit (List.replicate 8 0) 0 ∧
    getBit (FrameCodec.encode (List.replicate 8 0)
        { name := "VCFRONT_driverIsLeaving", offset := 1, value := { length := 1 } }
        1 .little).2 2 = getBit (List.replicate 8 0) 2 :=
  have h := FrameCodec.round_trip (List.replicate 8 0) "VCFRONT_driverIsLeaving" 1 1
    { name := "VCFRONT_driverIsLeaving", offset := 1, value := { length := 1 } } 1 .little
    (by decide) (by decide) (by decide)
  ⟨h.1, h.2.1, h.2.2.1, h.2.2.2 0 (by decide), h.2.2.2 2 (by decide)⟩

/-- C11: on the codec modelled from the specification, for every frame, whatever its
width, and every descriptor with `offset + length` above the bit width of the frame, both
`decode` and `encode` fail with `OutOfBounds`, whatever the value and the bit order, and
`encode` leaves the frame as it was.  Length 9 at offset 60 on an 8-byte frame is such a
case. -/
theorem FrameCodec.out_of_bounds (frame : Frame) (d : CANSignal) (value : Nat)
    (e : Endianness) (h : d.offset + d.value.getLength > 8 * (frame.length : Int)) :
    FrameCodec.decode frame d e = .error .OutOfBounds ∧
    (FrameCodec.encode frame d value e).1 = .error .OutOfBounds ∧
    (FrameCodec.encode frame d value e).2 = frame := by
  simp only [FrameCodec.decode, FrameCodec.encode]
  rw [if_pos h, if_pos h]
  exact ⟨rfl, rfl, rfl⟩

theorem FrameCodec.out_of_bounds_witness :
    CANSignal.new "wide" 60 9
      = .returned { name := "wide", offset := 60, value := { length := 9 } } ∧
    ((60 : Int) + 9 > 8 * ((List.replicate 8 (0 : Fin 256)).length : Int)) ∧
    FrameCodec.decode (List.replicate 8 0)
      { name := "wide", offset := 60, value := { length := 9 } } .little
      = .error .OutOfBounds ∧
    (FrameCodec.encode (List.replicate 8 0)
      { name := "wide", offset := 60, value := { length := 9 } } 5 .little).1
      = .error .OutOfBounds ∧
    (FrameCodec.encode (List.replicate 8 0)
      { name := "wide", offset := 60, value := { length := 9 } } 5 .little).2
      = List.replicate 8 0 :=
  ⟨by decide, by decide,
    FrameCodec.out_of_bounds (List.replicate 8 0)
      { name := "wide", offset := 60, value := { length := 9 } } 5 .little (by decide)⟩

/-- C12: on the codec modelled from the specification, for every descriptor within the
bit width of the frame and every value that is at least `2^length`, `encode` fails with
`ValueOverflow` and the frame after the call is the frame before it. -/
theorem FrameCodec.value_overflow (frame : Frame) (d : CANSignal) (value : Nat)
    (e : Endianness) (hb : d.offset + d.value.getLength ≤ 8 * (frame.length : Int))
    (hv : value ≥ 2 ^ d.value.getLength.toNat) :
    (FrameCodec.encode frame d value e).1 = .error .ValueOverflow ∧
    (FrameCodec.encode frame d value e).2 = frame := by
  simp only [FrameCodec.encode]
  rw [if_neg (not_lt.mpr hb), if_pos hv]
  exact ⟨rfl, rfl⟩

theorem FrameCodec.value_overflow_witness :
    CANSignal.new "VCFRONT_driverIsLeaving" 1 1
      = .returned { name := "VCFRONT_driverIsLeaving", offset := 1, value := { length := 1 } } ∧
    (FrameCodec.encode [255, 0, 0, 0, 0, 0, 0, 0]
      { name := "VCFRONT_driverIsLeaving", offset := 1, value := { length := 1 } }
      2 .little).1 = .error .ValueOverflow ∧
    (FrameCodec.encode [255, 0, 0, 0, 0, 0, 0, 0]
      { name := "VCFRONT_driverIsLeaving", offset := 1, value := { length := 1 } }
      2 .little).2 = [255, 0, 0, 0, 0, 0, 0, 0] :=
  ⟨by decide,
    FrameCodec.value_overflow [255, 0, 0, 0, 0, 0, 0, 0]
      { name := "VCFRONT_driverIsLeaving", offset := 1, value := { length := 1 } } 2 .little
      (by decide) (by decide)⟩

/-! ## The exit status of a failed construction -/

/-- C13: a failed construction ends the process with status -3, whether the offset was
below 0 or the length below 1; the two cases differ only in the diagnostic written to
`std::cerr`.  What is written is exactly one diagnostic: that of the offset when the
offset is invalid, also when the length is invalid too, and otherwise that of the length,
which is one line (as is the one of the offset, when the name holds no newline). -/
theorem construction_failure_status (name : String) (offset length : Int) :
    (offset < 0 →
      CANSignal.new name offset length
        = .exited (-3)
            (invalidOffsetText ++ name ++ ": " ++ decimal offset ++ " is less than 0\n")) ∧
    (0 ≤ offset → length < 1 →
      CANSignal.new name offset length
        = .exited (-3) (invalidLengthText ++ ": " ++ decimal length ++ " is less than 1\n")) ∧
    (length < 1 →
      CANValue.new length
        = .exited (-3) (invalidLengthText ++ ": " ++ decimal length ++ " is less than 1\n")) ∧
    (invalidOffsetText ++ name ++ ": " ++ decimal offset ++ " is less than 0\n"
      ≠ invalidLengthText ++ ": " ++ decimal length ++ " is less than 1\n") ∧
    textLines (invalidLengthText ++ ": " ++ decimal length ++ " is less than 1\n")
      = [invalidLengthText ++ ": " ++ decimal length ++ " is less than 1", ""] ∧
    ('\n' ∉ name.data →
      textLines (invalidOffsetText ++ name ++ ": " ++ decimal offset ++ " is less than 0\n")
        = [invalidOffsetText ++ name ++ ": " ++ decimal offset ++ " is less than 0", ""]) := by
  refine ⟨fun ho => CANSignal.new_of_neg name length ho, ?_, fun hl => CANValue.new_of_lt hl,
    offsetDiagnostic_ne_lengthDiagnostic name offset length, lengthDiagnostic_lines length,
    offsetDiagnostic_lines name offset⟩
  intro ho hl
  rw [CANSignal.new_of_nonneg name length ho, CANValue.new_of_lt hl]
  rfl

theorem construction_failure_status_witness :
    CANSignal.new "VCFRONT_driverIsLeaving" (-1) 0
      = .exited (-3)
          "Invalid offset while constructing signal VCFRONT_driverIsLeaving: -1 is less than 0\n" ∧
    CANSignal.new "VCFRONT_driverIsLeaving" 1 0
      = .exited (-3) "Invalid length while constructing value: 0 is less than 1\n" ∧
    CANValue.new (-2)
      = .exited (-3) "Invalid length while constructing value: -2 is less than 1\n" ∧
    textLines
        (invalidOffsetText ++ "VCFRONT_driverIsLeaving" ++ ": " ++ decimal (-1)
          ++ " is less than 0\n")
      = [invalidOffsetText ++ "VCFRONT_driverIsLeaving" ++ ": " ++ decimal (-1)
          ++ " is less than 0", ""] :=
  ⟨(construction_failure_status "VCFRONT_driverIsLeaving" (-1) 0).1 (by decide),
   (construction_failure_status "VCFRONT_driverIsLeaving" 1 0).2.1 (by decide) (by decide),
   (construction_failure_status "VCFRONT_driverIsLeaving" 1 (-2)).2.2.1 (by decide),
   (construction_failure_status "VCFRONT_driverIsLeaving" (-1) 0).2.2.2.2.2 (by decide)⟩

end OpenCAN
